import Mathlib

/-!
# Breathing-session timer (`src/app.js`)

A shallow embedding of the session state machine of `src/app.js`: the `state`
object, the closure variable `interval`, the handlers `togglePlay`,
`resetToStart`, `toggleSound`, `handleTimeLimitChange`, `startWithPreset`, the
exhale slider handler, and the `setInterval` callback installed by
`startInterval`.

Numbers are natural numbers.  Every number the program stores is a
non-negative integer far below 2^53 (`inhaleTime` is the constant 4, the slider
gives `exhaleTime` in 6..8, elapsed seconds come from a monotonic clock), so
JavaScript arithmetic on them is exact.  The subtractions of the phase
computation never go below zero when `inhaleTime + exhaleTime > 0`; for a zero
cycle length JavaScript's `%` gives `NaN` and the embedding is not meant to be
read there.
-/

namespace BoxV

/-- Effects a handler asks of its collaborators, in call order: `playTone()`,
`render()`, `requestWakeLock()`, `releaseWakeLock()`, `setInterval(...)` and
`clearInterval(interval)`.  `tone` records the call of `playTone`; whether it is
audible depends on `soundEnabled`. -/
inductive Signal where
  | tone
  | render
  | requestWakeLock
  | releaseWakeLock
  | setInterval
  | clearInterval
  deriving DecidableEq, Repr

/-- The `state` object of lines 5-16.  `count` is the phase: 0 is Inhale, 1 is
Exhale (`getInstruction`). -/
structure State where
  isPlaying : Bool
  count : Nat
  countdown : Nat
  totalTime : Nat
  soundEnabled : Bool
  timeLimit : String
  sessionComplete : Bool
  timeLimitReached : Bool
  inhaleTime : Nat
  exhaleTime : Nat
  deriving DecidableEq, Repr

/-- The program's mutable variables: the `state` object and the closure variable
`interval`.  `interval = some t` means a `setInterval` callback is scheduled
whose captured `startTotalTime` is `t`; `none` means no callback is scheduled
(never set, or cleared by `clearInterval`). -/
structure App where
  state : State
  interval : Option Nat
  deriving DecidableEq, Repr

/-- The initial `state` literal (lines 5-16). -/
def initialState : State :=
  { isPlaying := false, count := 0, countdown := 4, totalTime := 0,
    soundEnabled := false, timeLimit := "", sessionComplete := false,
    timeLimitReached := false, inhaleTime := 4, exhaleTime := 6 }

/-- The program right after `DOMContentLoaded`: `let interval;` is undefined. -/
def initialApp : App := { state := initialState, interval := none }

/-- JavaScript truthiness of a string: every string but the empty one. -/
def truthy (s : String) : Bool := !s.data.isEmpty

/-- Value of a run of decimal digits, most significant first. -/
def digitsValue (ds : List Char) : Nat :=
  ds.foldl (fun n c => 10 * n + (c.toNat - 48)) 0

/-- The builtin `parseInt(s)` on the strings the program stores in `timeLimit`:
the value of the longest prefix of decimal digits, `none` (for `NaN`) when the
string does not start with a digit.  Leading white space, a sign and a `0x`
prefix are not modelled; the stored strings are digits only.  The value is
exact; the builtin rounds a digit run denoting more than 2^53 to the nearest
double, which no limit a session can reach depends on. -/
def parseInt (s : String) : Option Nat :=
  match s.data.takeWhile Char.isDigit with
  | [] => none
  | d :: ds => some (digitsValue (d :: ds))

/-- The comparison `x >= parseInt(s) * 60` of line 167; a comparison with `NaN`
is false. -/
def geLimitSeconds (x : Nat) (s : String) : Bool :=
  match parseInt s with
  | none => false
  | some m => decide (x ≥ m * 60)

/-- Lines 205-218: the phase (`newCount`) and `newCountdown` derived from the
total time and the two durations; the spec's `PhaseClock.compute`. -/
def compute (totalTime inhaleTime exhaleTime : Nat) : Nat × Nat :=
  let cycleTime := inhaleTime + exhaleTime
  let cyclePos := totalTime % cycleTime
  if cyclePos < inhaleTime then
    (0, inhaleTime - cyclePos)
  else
    (1, exhaleTime - (cyclePos - inhaleTime))

/-- The wrap condition of line 223: `cyclePos === 0 && state.totalTime > 0`. -/
def wrapped (totalTime inhaleTime exhaleTime : Nat) : Bool :=
  decide (totalTime % (inhaleTime + exhaleTime) = 0) && decide (totalTime > 0)

/-- Lines 96-100 and 113-118: the fields every start and reset writes. -/
def freshSession (s : State) : State :=
  { s with totalTime := 0, countdown := s.inhaleTime, count := 0,
           sessionComplete := false, timeLimitReached := false }

/-- `togglePlay` (lines 88-109). -/
def togglePlay (a : App) : App × List Signal :=
  let s := { a.state with isPlaying := !a.state.isPlaying }
  if s.isPlaying then
    let s := freshSession s
    ({ state := s, interval := some s.totalTime },
      [Signal.tone, Signal.clearInterval, Signal.setInterval,
       Signal.requestWakeLock, Signal.render])
  else
    ({ state := s, interval := none },
      [Signal.clearInterval, Signal.releaseWakeLock, Signal.render])

/-- `resetToStart` (lines 111-122). -/
def resetToStart (a : App) : App × List Signal :=
  let s := { freshSession { a.state with isPlaying := false } with timeLimit := "" }
  ({ state := s, interval := none },
    [Signal.clearInterval, Signal.releaseWakeLock, Signal.render])

/-- `toggleSound` (lines 124-127). -/
def toggleSound (a : App) : App × List Signal :=
  ({ a with state := { a.state with soundEnabled := !a.state.soundEnabled } },
    [Signal.render])

/-- The replacement `value.replace(/[^0-9]/g, '')` of line 130. -/
def sanitize (value : String) : String :=
  String.mk (value.data.filter Char.isDigit)

/-- `handleTimeLimitChange` (lines 129-131), `value` being `e.target.value`. -/
def handleTimeLimitChange (a : App) (value : String) : App × List Signal :=
  ({ a with state := { a.state with timeLimit := sanitize value } }, [])

/-- `startWithPreset` (lines 133-150); `minutes.toString()` is the decimal
representation. -/
def startWithPreset (a : App) (minutes : Nat) : App × List Signal :=
  let s := { a.state with timeLimit := toString minutes }
  let s := freshSession { s with isPlaying := true }
  ({ state := s, interval := some s.totalTime },
    [Signal.tone, Signal.clearInterval, Signal.setInterval,
     Signal.requestWakeLock, Signal.render])

/-- The `input` handler of the exhale slider (lines 359-362), `value` being
`parseInt(this.value)`. -/
def setExhaleTime (a : App) (value : Nat) : App × List Signal :=
  ({ a with state := { a.state with exhaleTime := value } }, [])

/-- The `setInterval` callback of `startInterval` (lines 158-261), run with
`elapsed = Math.floor((performance.now() - startTime) / 1000)`.  It runs only
while a callback is scheduled. -/
def tick (a : App) (elapsed : Nat) : App × List Signal :=
  match a.interval with
  | none => (a, [])
  | some startTotalTime =>
    let newTotalTime := startTotalTime + elapsed
    if newTotalTime > a.state.totalTime then
      let s1 : State := { a.state with totalTime := newTotalTime }
      let s2 : State :=
        if truthy s1.timeLimit && !s1.timeLimitReached then
          if geLimitSeconds s1.totalTime s1.timeLimit then
            { s1 with timeLimitReached := true }
          else s1
        else s1
      let cycleTime : Nat := s2.inhaleTime + s2.exhaleTime
      let cyclePos : Nat := s2.totalTime % cycleTime
      let new : Nat × Nat := compute s2.totalTime s2.inhaleTime s2.exhaleTime
      let tones : List Signal :=
        if new.1 ≠ s2.count then [Signal.tone]
        else if cyclePos = 0 ∧ s2.totalTime > 0 then [Signal.tone]
        else []
      let s3 : State := { s2 with count := new.1, countdown := new.2 }
      if s3.count = 0 ∧ s3.timeLimitReached = true then
        if cyclePos = 0 ∧ s3.timeLimitReached = true then
          ({ state := { s3 with sessionComplete := true, isPlaying := false },
             interval := none },
            tones ++ [Signal.clearInterval, Signal.releaseWakeLock, Signal.render])
        else ({ a with state := s3 }, tones ++ [Signal.render])
      else ({ a with state := s3 }, tones ++ [Signal.render])
    else (a, [Signal.render])

/-- The events that drive the program: the user's controls and the timer. -/
inductive Action where
  | togglePlay
  | resetToStart
  | toggleSound
  | handleTimeLimitChange (value : String)
  | startWithPreset (minutes : Nat)
  | setExhaleTime (value : Nat)
  | tick (elapsed : Nat)
  deriving DecidableEq, Repr

/-- One event: the handler it triggers. -/
def step (a : App) : Action → App × List Signal
  | Action.togglePlay => togglePlay a
  | Action.resetToStart => resetToStart a
  | Action.toggleSound => toggleSound a
  | Action.handleTimeLimitChange value => handleTimeLimitChange a value
  | Action.startWithPreset minutes => startWithPreset a minutes
  | Action.setExhaleTime value => setExhaleTime a value
  | Action.tick elapsed => tick a elapsed

/-- The program after a sequence of events. -/
def run (a : App) : List Action → App
  | [] => a
  | act :: acts => run (step a act).1 acts

/-- The program after a sequence of timer callbacks with the given samples of
`elapsed`. -/
def ticks (a : App) : List Nat → App
  | [] => a
  | e :: es => ticks (tick a e).1 es

/-- The controls `render` binds (lines 348-366): toggle-play unless the session
is complete, reset only when it is complete, and sound, time limit, exhale
slider (range 6..8) and the presets 2, 5, 10 only when neither playing nor
complete.  The timer callback is not a control. -/
def offered (s : State) : Action → Bool
  | Action.togglePlay => !s.sessionComplete
  | Action.resetToStart => s.sessionComplete
  | Action.toggleSound => !s.isPlaying && !s.sessionComplete
  | Action.handleTimeLimitChange _ => !s.isPlaying && !s.sessionComplete
  | Action.startWithPreset minutes =>
      !s.isPlaying && !s.sessionComplete &&
        (minutes == 2 || minutes == 5 || minutes == 10)
  | Action.setExhaleTime value =>
      !s.isPlaying && !s.sessionComplete && decide (6 ≤ value) && decide (value ≤ 8)
  | Action.tick _ => true

/-- The events the countdown invariant is stated over: every handler and the
timer callback at any time, the exhale slider only while not playing and only
with a value in 6..8. -/
def exhaleChangeOnlyIdle (s : State) : Action → Bool
  | Action.setExhaleTime value => !s.isPlaying && decide (6 ≤ value) && decide (value ≤ 8)
  | _ => true

/-- Whether every event of a sequence passes the guard in the state it is
applied to. -/
def permitted (guard : State → Action → Bool) (a : App) : List Action → Bool
  | [] => true
  | act :: acts => guard a.state act && permitted guard (step a act).1 acts

/-- The countdown invariant of the data model:
`0 ≤ countdown ≤ (phase == Inhale ? inhaleTime : exhaleTime)`. -/
def countdownInRange (s : State) : Prop :=
  0 ≤ s.countdown ∧ s.countdown ≤ (if s.count = 0 then s.inhaleTime else s.exhaleTime)

instance (s : State) : Decidable (countdownInRange s) := by
  unfold countdownInRange; infer_instance

/-! ## Predicates and sample runs used by the theorems -/

/-- Whether the callback run with total time `t` completes the session: the
limit flag is set (before or by this run) and `t` is at cycle position 0 in the
Inhale phase (lines 231 and 250). -/
def completesAt (s : State) (t : Nat) : Bool :=
  (s.timeLimitReached || (truthy s.timeLimit && geLimitSeconds t s.timeLimit)) &&
    decide (t % (s.inhaleTime + s.exhaleTime) = 0) &&
    decide ((compute t s.inhaleTime s.exhaleTime).1 = 0)

/-- The part of the countdown invariant every event keeps: the Inhale bound
always, the Exhale bound while playing. -/
def countdownInRangeWhilePlaying (s : State) : Prop :=
  (s.count = 0 → s.countdown ≤ s.inhaleTime) ∧
  (s.isPlaying = true → s.count ≠ 0 → s.countdown ≤ s.exhaleTime)

/-- The stored phase and countdown are those of the stored total time, the
timer is either scheduled from 0 or cancelled by completion, and the total time
is at most `E`. -/
def tracksTime (b : App) (E : Nat) : Prop :=
  (b.state.count, b.state.countdown) =
      compute b.state.totalTime b.state.inhaleTime b.state.exhaleTime ∧
  (b.interval = some 0 ∨ (b.interval = none ∧ b.state.sessionComplete = true)) ∧
  b.state.totalTime ≤ E

/-- The session `t` seconds after its start, sampled every second, as long as it
has not completed: the timer is scheduled, the total time is `t`, the limit flag
says whether `L` minutes have passed. -/
def secondOfSession (b : App) (L t : Nat) : Prop :=
  b.interval = some 0 ∧ b.state.totalTime = t ∧
  b.state.timeLimitReached = decide (L * 60 ≤ t) ∧
  b.state.sessionComplete = false ∧ b.state.isPlaying = true

/-- A running session in the Exhale phase of its second cycle: started from the
initial program with the 2 minute preset and sampled at 15 seconds. -/
def runningApp : App := run initialApp [Action.startWithPreset 2, Action.tick 15]

/-- The events of the failing run of C9: exhale 8, start, sample second 4
(Exhale, countdown 8), pause, exhale 6. -/
def pausedExhaleChange : List Action :=
  [Action.setExhaleTime 8, Action.togglePlay, Action.tick 4, Action.togglePlay,
   Action.setExhaleTime 6]

/-- The spec's reading of `startWithPreset(minutes)`: store `minutes` as the
time limit, then call start (`togglePlay`). -/
def setLimitThenStart (a : App) (minutes : Nat) : App × List Signal :=
  togglePlay { a with state := { a.state with timeLimit := toString minutes } }

/-- The decrement-per-tick stepper that the comments of `startInterval` give as
the original logic (lines 194-197 and 239-245): at countdown 1 the phase flips,
`count = (count + 1) % 2`, and the countdown restarts at the full duration of
the new phase; otherwise the countdown goes down by one.  A pair is
`(count, countdown)`. -/
def decrementStep (inhaleTime exhaleTime : Nat) (p : Nat × Nat) : Nat × Nat :=
  if p.2 = 1 then
    ((p.1 + 1) % 2, if (p.1 + 1) % 2 = 0 then inhaleTime else exhaleTime)
  else
    (p.1, p.2 - 1)

/-- The session after `n` callbacks sampled at seconds 1, ..., `n`: either still
scheduled, with total time `n` and the phase and countdown of second `n`, or
completed and cancelled. -/
def sampledEverySecond (b : App) (n : Nat) : Prop :=
  (b.interval = some 0 ∧ b.state.totalTime = n ∧
    (b.state.count, b.state.countdown) =
      compute n b.state.inhaleTime b.state.exhaleTime) ∨
  (b.interval = none ∧ b.state.sessionComplete = true)

/-- The events the completion property is stated over: every handler and the
timer callback at any time, the time-limit input only while not playing (the
only time `render` shows it). -/
def limitChangeOnlyIdle (s : State) : Action → Bool
  | Action.handleTimeLimitChange _ => !s.isPlaying
  | _ => true

/-- While a callback is scheduled the session is playing, and a set limit flag
means the total time has reached the stored limit. -/
def limitFlagSound (a : App) : Prop :=
  (a.interval ≠ none → a.state.isPlaying = true) ∧
  (a.interval ≠ none → a.state.timeLimitReached = true →
    geLimitSeconds a.state.totalTime a.state.timeLimit = true)

/-! ## The timer callback, field by field -/

theorem tick_none (a : App) (e : Nat) (h : a.interval = none) :
    tick a e = (a, []) := by
  simp [tick, h]

theorem tick_stale (a : App) (st e : Nat) (h : a.interval = some st)
    (hle : st + e ≤ a.state.totalTime) : (tick a e).1 = a := by
  simp [tick, h, Nat.not_lt.mpr hle]

theorem tick_advance (a : App) (st e : Nat) (h : a.interval = some st)
    (hgt : a.state.totalTime < st + e) :
    (tick a e).1 =
      { state :=
          { a.state with
            totalTime := st + e
            timeLimitReached := a.state.timeLimitReached ||
              (truthy a.state.timeLimit && geLimitSeconds (st + e) a.state.timeLimit)
            count := (compute (st + e) a.state.inhaleTime a.state.exhaleTime).1
            countdown := (compute (st + e) a.state.inhaleTime a.state.exhaleTime).2
            sessionComplete := a.state.sessionComplete || completesAt a.state (st + e)
            isPlaying := a.state.isPlaying && !completesAt a.state (st + e) }
        interval := if completesAt a.state (st + e) then none else some st } := by
  obtain ⟨s, iv⟩ := a
  obtain ⟨pl, cnt, cd, tt, snd, tl, sc, tr, it, et⟩ := s
  simp only at h hgt
  subst h
  simp only [tick, completesAt, hgt, if_true]
  cases tr <;> by_cases htl : truthy tl = true <;>
    by_cases hge : geLimitSeconds (st + e) tl = true <;>
    by_cases h0 : (st + e) % (it + et) = 0 <;>
    by_cases hc : (compute (st + e) it et).1 = 0 <;>
    simp [h0, hc, htl, hge]

/-! ## Phase and countdown -/

theorem compute_inhale (t i e : Nat) (h : t % (i + e) < i) :
    compute t i e = (0, i - t % (i + e)) := by
  simp [compute, h]

theorem compute_exhale (t i e : Nat) (h : ¬ t % (i + e) < i) :
    compute t i e = (1, e - (t % (i + e) - i)) := by
  simp [compute, h]

/-- C1: for every elapsed time and positive durations `i`, `e`, the phase is
Inhale (0) or Exhale (1); in Inhale the countdown is `i - cyclePos` exactly and
lies in `[1, i]`; in Exhale it is `e - (cyclePos - i)` exactly and lies in
`[1, e]`; the countdown is never 0. -/
theorem compute_countdown_range (elapsed i e : Nat) (hi : 0 < i) (he : 0 < e) :
    ((compute elapsed i e).1 = 0 ∨ (compute elapsed i e).1 = 1) ∧
    ((compute elapsed i e).1 = 0 →
      (compute elapsed i e).2 + elapsed % (i + e) = i ∧
      1 ≤ (compute elapsed i e).2 ∧ (compute elapsed i e).2 ≤ i) ∧
    ((compute elapsed i e).1 = 1 →
      i ≤ elapsed % (i + e) ∧
      (compute elapsed i e).2 + (elapsed % (i + e) - i) = e ∧
      1 ≤ (compute elapsed i e).2 ∧ (compute elapsed i e).2 ≤ e) ∧
    (compute elapsed i e).2 ≠ 0 := by
  have hlt : elapsed % (i + e) < i + e := Nat.mod_lt _ (by omega)
  by_cases h : elapsed % (i + e) < i
  · rw [compute_inhale _ _ _ h]
    generalize elapsed % (i + e) = c at hlt h ⊢
    refine ⟨Or.inl rfl, fun _ => ?_, fun h1 => ?_, ?_⟩
    · show i - c + c = i ∧ 1 ≤ i - c ∧ i - c ≤ i
      omega
    · exact absurd h1 (show ¬ (0 : Nat) = 1 by decide)
    · show i - c ≠ 0
      omega
  · rw [compute_exhale _ _ _ h]
    generalize elapsed % (i + e) = c at hlt h ⊢
    refine ⟨Or.inr rfl, fun h1 => ?_, fun _ => ?_, ?_⟩
    · exact absurd h1 (show ¬ (1 : Nat) = 0 by decide)
    · show i ≤ c ∧ e - (c - i) + (c - i) = e ∧ 1 ≤ e - (c - i) ∧ e - (c - i) ≤ e
      omega
    · show e - (c - i) ≠ 0
      omega

/-- C1 at elapsed 9 with durations 4 and 6. -/
theorem compute_countdown_range_witness :
    ((compute 9 4 6).1 = 0 ∨ (compute 9 4 6).1 = 1) ∧
    ((compute 9 4 6).1 = 0 →
      (compute 9 4 6).2 + 9 % (4 + 6) = 4 ∧
      1 ≤ (compute 9 4 6).2 ∧ (compute 9 4 6).2 ≤ 4) ∧
    ((compute 9 4 6).1 = 1 →
      4 ≤ 9 % (4 + 6) ∧
      (compute 9 4 6).2 + (9 % (4 + 6) - 4) = 6 ∧
      1 ≤ (compute 9 4 6).2 ∧ (compute 9 4 6).2 ≤ 6) ∧
    (compute 9 4 6).2 ≠ 0 :=
  compute_countdown_range 9 4 6 (by decide) (by decide)

/-! ## Start, reset and the controls offered -/

/-- The timer callback, by cases: nothing scheduled, no new second, or a new
second. -/
theorem tick_cases (a : App) (e : Nat) :
    (tick a e).1 = a ∨
    ∃ st, a.interval = some st ∧ a.state.totalTime < st + e ∧
      (tick a e).1 =
        { state :=
            { a.state with
              totalTime := st + e
              timeLimitReached := a.state.timeLimitReached ||
                (truthy a.state.timeLimit && geLimitSeconds (st + e) a.state.timeLimit)
              count := (compute (st + e) a.state.inhaleTime a.state.exhaleTime).1
              countdown := (compute (st + e) a.state.inhaleTime a.state.exhaleTime).2
              sessionComplete := a.state.sessionComplete || completesAt a.state (st + e)
              isPlaying := a.state.isPlaying && !completesAt a.state (st + e) }
          interval := if completesAt a.state (st + e) then none else some st } := by
  cases h : a.interval with
  | none => exact Or.inl (by rw [tick_none a e h])
  | some st =>
    by_cases hgt : a.state.totalTime < st + e
    · exact Or.inr ⟨st, rfl, hgt, tick_advance a st e h hgt⟩
    · exact Or.inl (tick_stale a st e h (Nat.not_lt.mp hgt))

theorem step_complete_not_playing (a : App) (act : Action)
    (h : a.state.sessionComplete = true → a.state.isPlaying = false) :
    (step a act).1.state.sessionComplete = true → (step a act).1.state.isPlaying = false := by
  cases act with
  | togglePlay =>
    cases hp : a.state.isPlaying <;> cases hc : a.state.sessionComplete <;>
      simp_all [step, togglePlay, freshSession]
  | resetToStart => simp [step, resetToStart, freshSession]
  | toggleSound => simpa [step, toggleSound] using h
  | handleTimeLimitChange value => simpa [step, handleTimeLimitChange] using h
  | startWithPreset minutes => simp [step, startWithPreset, freshSession]
  | setExhaleTime value => simpa [step, setExhaleTime] using h
  | tick e =>
    rcases tick_cases a e with h1 | ⟨st, _, _, h1⟩
    · simpa [step, h1] using h
    · simp only [step, h1]
      cases hc : completesAt a.state (st + e) <;> simp_all

theorem run_complete_not_playing (acts : List Action) (a : App)
    (h : a.state.sessionComplete = true → a.state.isPlaying = false) :
    (run a acts).state.sessionComplete = true → (run a acts).state.isPlaying = false := by
  induction acts generalizing a with
  | nil => exact h
  | cons act acts ih => exact ih _ (step_complete_not_playing a act h)

/-- C5: starting a session, by `togglePlay` from a non-running state, by
`startWithPreset`, or by pausing a running session and pressing start at once,
always gives total time 0, phase Inhale, countdown `inhaleTime` (which is what
`compute` gives at 0), limit flag and completion flag cleared and the session
running, whatever the fields held before. -/
theorem start_yields_fresh_session (a b : App) (minutes : Nat)
    (hi : 0 < a.state.inhaleTime)
    (hb : (a.state.isPlaying = false ∧ b = (togglePlay a).1) ∨
          b = (startWithPreset a minutes).1 ∨
          (a.state.isPlaying = true ∧ b = (togglePlay (togglePlay a).1).1)) :
    b.state.totalTime = 0 ∧ b.state.count = 0 ∧
    b.state.countdown = b.state.inhaleTime ∧
    b.state.inhaleTime = a.state.inhaleTime ∧
    b.state.exhaleTime = a.state.exhaleTime ∧
    (b.state.count, b.state.countdown) = compute 0 b.state.inhaleTime b.state.exhaleTime ∧
    b.state.timeLimitReached = false ∧ b.state.sessionComplete = false ∧
    b.state.isPlaying = true := by
  have h0 : compute 0 a.state.inhaleTime a.state.exhaleTime = (0, a.state.inhaleTime) := by
    simp [compute, hi]
  rcases hb with ⟨hp, rfl⟩ | rfl | ⟨hp, rfl⟩
  · simp [togglePlay, freshSession, hp, h0]
  · simp [startWithPreset, freshSession, h0]
  · simp [togglePlay, freshSession, hp, h0]

/-- C5 on the running session paused and started again: the total time 15 is
reset to 0. -/
theorem start_yields_fresh_session_witness :
    runningApp.state.totalTime = 15 ∧
    (togglePlay (togglePlay runningApp).1).1.state.totalTime = 0 ∧
    (togglePlay (togglePlay runningApp).1).1.state.isPlaying = true :=
  ⟨by decide,
   (start_yields_fresh_session runningApp (togglePlay (togglePlay runningApp).1).1 0
      (by decide) (Or.inr (Or.inr ⟨by decide, rfl⟩))).1,
   (start_yields_fresh_session runningApp (togglePlay (togglePlay runningApp).1).1 0
      (by decide) (Or.inr (Or.inr ⟨by decide, rfl⟩))).2.2.2.2.2.2.2.2⟩

/-- C6, as stated, fails: `resetToStart` has no guard, and on a running session
it stops the session, zeroes the total time and clears the time limit. -/
theorem resetToStart_changes_running_state :
    runningApp.state.isPlaying = true ∧
    (resetToStart runningApp).1.state ≠ runningApp.state ∧
    (resetToStart runningApp).1.state.isPlaying = false ∧
    runningApp.state.totalTime = 15 ∧
    (resetToStart runningApp).1.state.totalTime = 0 ∧
    runningApp.state.timeLimit = "2" ∧
    (resetToStart runningApp).1.state.timeLimit = "" := by
  decide

/-- C6, amended: reset cannot be requested while running.  In every state
reached from the initial program by any sequence of events in which the session
is running, `render` does not bind the reset control.  The handler itself is
unguarded: from any state it stops the session, cancels the timer and writes
the start values and the empty time limit. -/
theorem resetToStart_not_offered_while_running (acts : List Action) (a : App)
    (h : (run initialApp acts).state.isPlaying = true) :
    offered (run initialApp acts).state Action.resetToStart = false ∧
    (resetToStart a).1.interval = none ∧
    (resetToStart a).1.state =
      { a.state with isPlaying := false, totalTime := 0, countdown := a.state.inhaleTime,
                     count := 0, sessionComplete := false, timeLimit := "",
                     timeLimitReached := false } := by
  refine ⟨?_, rfl, rfl⟩
  have hinv := run_complete_not_playing acts initialApp (by decide)
  cases hc : (run initialApp acts).state.sessionComplete with
  | false => simp [offered, hc]
  | true => rw [hinv hc] at h; exact absurd h (by decide)

/-- C6, amended, on the running session `runningApp`. -/
theorem resetToStart_not_offered_while_running_witness :
    runningApp.state.isPlaying = true ∧
    offered runningApp.state Action.resetToStart = false :=
  ⟨by decide,
   (resetToStart_not_offered_while_running
      [Action.startWithPreset 2, Action.tick 15] initialApp (by decide)).1⟩

/-- C8: in every state reached from the initial program by any sequence of
events (start, pause, presets, reset, timer callbacks at any samples, and the
settings handlers), a complete session is not running. -/
theorem complete_implies_not_running (acts : List Action)
    (h : (run initialApp acts).state.sessionComplete = true) :
    (run initialApp acts).state.isPlaying = false :=
  run_complete_not_playing acts initialApp (by decide) h

/-- C8 on a session with a 1 minute limit sampled at 60 seconds. -/
theorem complete_implies_not_running_witness :
    (run initialApp [Action.handleTimeLimitChange "1", Action.togglePlay,
      Action.tick 60]).state.sessionComplete = true ∧
    (run initialApp [Action.handleTimeLimitChange "1", Action.togglePlay,
      Action.tick 60]).state.isPlaying = false :=
  ⟨by decide,
   complete_implies_not_running
     [Action.handleTimeLimitChange "1", Action.togglePlay, Action.tick 60] (by decide)⟩

/-- C10, as stated, fails: on a running session `startWithPreset` restarts
(total time and phase are reset) and `togglePlay` pauses (running becomes
false). -/
theorem start_while_running_changes_state :
    runningApp.state.isPlaying = true ∧
    runningApp.state.totalTime = 15 ∧
    (startWithPreset runningApp 5).1.state.totalTime = 0 ∧
    runningApp.state.count = 1 ∧
    (startWithPreset runningApp 5).1.state.count = 0 ∧
    (togglePlay runningApp).1.state.isPlaying = false := by
  decide

/-- C10, amended: no start can be requested while running.  In every state
reached from the initial program by any sequence of events in which the session
is running, the preset controls are not offered, and the toggle-play control
pauses: it clears `isPlaying`, cancels the timer and leaves every other field
unchanged. -/
theorem start_not_offered_while_running (acts : List Action) (minutes : Nat)
    (h : (run initialApp acts).state.isPlaying = true) :
    offered (run initialApp acts).state (Action.startWithPreset minutes) = false ∧
    (togglePlay (run initialApp acts)).1.state =
      { (run initialApp acts).state with isPlaying := false } ∧
    (togglePlay (run initialApp acts)).1.interval = none := by
  simp [offered, togglePlay, h]

/-- C10, amended, on the running session `runningApp`. -/
theorem start_not_offered_while_running_witness :
    runningApp.state.isPlaying = true ∧
    offered runningApp.state (Action.startWithPreset 5) = false ∧
    (togglePlay runningApp).1.state = { runningApp.state with isPlaying := false } :=
  ⟨by decide,
   (start_not_offered_while_running
      [Action.startWithPreset 2, Action.tick 15] 5 (by decide)).1,
   (start_not_offered_while_running
      [Action.startWithPreset 2, Action.tick 15] 5 (by decide)).2.1⟩

/-! ## The countdown invariant -/

theorem compute_countdown_le (t i e : Nat) :
    (compute t i e).2 ≤ (if (compute t i e).1 = 0 then i else e) := by
  by_cases h : t % (i + e) < i
  · rw [compute_inhale _ _ _ h]; simp
  · rw [compute_exhale _ _ _ h]; simp

theorem step_countdownInRangeWhilePlaying (a : App) (act : Action)
    (hg : exhaleChangeOnlyIdle a.state act = true)
    (h : countdownInRangeWhilePlaying a.state) :
    countdownInRangeWhilePlaying (step a act).1.state := by
  obtain ⟨h1, h2⟩ := h
  cases act with
  | togglePlay =>
    cases hp : a.state.isPlaying <;>
      simp_all [step, togglePlay, freshSession, countdownInRangeWhilePlaying]
  | resetToStart => simp [step, resetToStart, freshSession, countdownInRangeWhilePlaying]
  | toggleSound => exact ⟨h1, h2⟩
  | handleTimeLimitChange value => exact ⟨h1, h2⟩
  | startWithPreset minutes =>
    simp [step, startWithPreset, freshSession, countdownInRangeWhilePlaying]
  | setExhaleTime value =>
    have hp : a.state.isPlaying = false := by
      simp [exhaleChangeOnlyIdle] at hg; exact hg.1.1
    refine ⟨h1, fun hp2 => ?_⟩
    have hp3 : a.state.isPlaying = true := hp2
    rw [hp] at hp3; exact absurd hp3 (by decide)
  | tick e =>
    rcases tick_cases a e with h3 | ⟨st, _, _, h3⟩
    · simp only [step, h3]; exact ⟨h1, h2⟩
    · simp only [step, h3, countdownInRangeWhilePlaying]
      have hb := compute_countdown_le (st + e) a.state.inhaleTime a.state.exhaleTime
      constructor
      · intro h0; simpa [h0] using hb
      · intro _ h0; simpa [h0] using hb

theorem step_countdownInRange (a : App) (act : Action)
    (hne : ∀ v, act ≠ Action.setExhaleTime v) (h : countdownInRange a.state) :
    countdownInRange (step a act).1.state := by
  cases act with
  | togglePlay =>
    cases hp : a.state.isPlaying <;>
      simp_all [step, togglePlay, freshSession, countdownInRange]
  | resetToStart => simp [step, resetToStart, freshSession, countdownInRange]
  | toggleSound => exact h
  | handleTimeLimitChange value => exact h
  | startWithPreset minutes => simp [step, startWithPreset, freshSession, countdownInRange]
  | setExhaleTime value => exact absurd rfl (hne value)
  | tick e =>
    rcases tick_cases a e with h3 | ⟨st, _, _, h3⟩
    · simp only [step, h3]; exact h
    · simp only [step, h3, countdownInRange]
      exact ⟨Nat.zero_le _, compute_countdown_le (st + e) a.state.inhaleTime a.state.exhaleTime⟩

theorem run_countdownInRangeWhilePlaying (acts : List Action) (a : App)
    (hg : permitted exhaleChangeOnlyIdle a acts = true)
    (h : countdownInRangeWhilePlaying a.state) :
    countdownInRangeWhilePlaying (run a acts).state := by
  induction acts generalizing a with
  | nil => exact h
  | cons act acts ih =>
    simp only [permitted, Bool.and_eq_true] at hg
    exact ih _ hg.2 (step_countdownInRangeWhilePlaying a act hg.1 h)

theorem run_countdownInRange (acts : List Action) (a : App)
    (hne : ∀ v, Action.setExhaleTime v ∉ acts) (h : countdownInRange a.state) :
    countdownInRange (run a acts).state := by
  induction acts generalizing a with
  | nil => exact h
  | cons act acts ih =>
    refine ih _ (fun v hv => hne v (List.mem_cons_of_mem _ hv))
      (step_countdownInRange a act (fun v hv => hne v ?_) h)
    rw [hv]; exact List.mem_cons_self _ _

/-- C9, as stated, fails: lowering the exhale duration while paused in the
Exhale phase leaves the stored countdown 8 above the new exhale duration 6.
Every event of the run is one `render` offers. -/
theorem countdown_exceeds_exhale_after_paused_change :
    permitted exhaleChangeOnlyIdle initialApp pausedExhaleChange = true ∧
    permitted offered initialApp pausedExhaleChange = true ∧
    (run initialApp pausedExhaleChange).state.isPlaying = false ∧
    (run initialApp pausedExhaleChange).state.count = 1 ∧
    (run initialApp pausedExhaleChange).state.countdown = 8 ∧
    (run initialApp pausedExhaleChange).state.exhaleTime = 6 ∧
    ¬ countdownInRange (run initialApp pausedExhaleChange).state := by
  decide

/-- C9, amended: the countdown invariant holds in the initial state and in
every state reached by start, presets, pause, reset, timer callbacks, the
settings handlers and exhale changes (to 6..8, while not playing) in which the
session is playing or the stored phase is Inhale, and in every state reached
without an exhale change. -/
theorem countdown_in_range_reachable (acts : List Action)
    (hg : permitted exhaleChangeOnlyIdle initialApp acts = true)
    (hcase : (run initialApp acts).state.isPlaying = true ∨
             (run initialApp acts).state.count = 0 ∨
             ∀ v, Action.setExhaleTime v ∉ acts) :
    countdownInRange initialApp.state ∧
    countdownInRange (run initialApp acts).state := by
  refine ⟨by decide, ?_⟩
  have hJ := run_countdownInRangeWhilePlaying acts initialApp hg
    ⟨fun _ => by decide, fun h => absurd h (by decide)⟩
  rcases hcase with hp | h0 | hne
  · refine ⟨Nat.zero_le _, ?_⟩
    by_cases h0 : (run initialApp acts).state.count = 0
    · simpa [h0] using hJ.1 h0
    · simpa [h0] using hJ.2 hp h0
  · exact ⟨Nat.zero_le _, by simpa [h0] using hJ.1 h0⟩
  · exact run_countdownInRange acts initialApp hne (by decide)

/-- C9, amended, on a run with an exhale change before the start: exhale 8,
start, sample second 4. -/
theorem countdown_in_range_reachable_witness :
    (run initialApp [Action.setExhaleTime 8, Action.togglePlay, Action.tick 4]).state.count = 1 ∧
    (run initialApp [Action.setExhaleTime 8, Action.togglePlay,
      Action.tick 4]).state.countdown = 8 ∧
    countdownInRange
      (run initialApp [Action.setExhaleTime 8, Action.togglePlay, Action.tick 4]).state :=
  ⟨by decide, by decide,
   (countdown_in_range_reachable
      [Action.setExhaleTime 8, Action.togglePlay, Action.tick 4]
      (by decide) (Or.inl (by decide))).2⟩

/-! ## Sequences of timer callbacks -/

theorem ticks_append (a : App) (es fs : List Nat) :
    ticks a (es ++ fs) = ticks (ticks a es) fs := by
  induction es generalizing a with
  | nil => rfl
  | cons e es ih => exact ih _

theorem ticks_concat (a : App) (es : List Nat) (e : Nat) :
    ticks a (es ++ [e]) = (tick (ticks a es) e).1 := by
  rw [ticks_append]; rfl

theorem tick_config (a : App) (e : Nat) :
    (tick a e).1.state.inhaleTime = a.state.inhaleTime ∧
    (tick a e).1.state.exhaleTime = a.state.exhaleTime ∧
    (tick a e).1.state.timeLimit = a.state.timeLimit := by
  rcases tick_cases a e with h | ⟨st, _, _, h⟩ <;> simp [h]

theorem ticks_config (es : List Nat) (a : App) :
    (ticks a es).state.inhaleTime = a.state.inhaleTime ∧
    (ticks a es).state.exhaleTime = a.state.exhaleTime ∧
    (ticks a es).state.timeLimit = a.state.timeLimit := by
  induction es generalizing a with
  | nil => exact ⟨rfl, rfl, rfl⟩
  | cons e es ih =>
    obtain ⟨h1, h2, h3⟩ := ih (tick a e).1
    obtain ⟨g1, g2, g3⟩ := tick_config a e
    exact ⟨h1.trans g1, h2.trans g2, h3.trans g3⟩

/-- What `togglePlay` from a non-running state and `startWithPreset` leave
behind: a timer scheduled from total time 0 and the start values. -/
theorem started_fields (a a0 : App) (minutes : Nat)
    (hstart : (a.state.isPlaying = false ∧ a0 = (togglePlay a).1) ∨
              a0 = (startWithPreset a minutes).1) :
    a0.interval = some 0 ∧ a0.state.totalTime = 0 ∧ a0.state.count = 0 ∧
    a0.state.countdown = a0.state.inhaleTime ∧ a0.state.isPlaying = true ∧
    a0.state.sessionComplete = false ∧ a0.state.timeLimitReached = false := by
  rcases hstart with ⟨hp, rfl⟩ | rfl
  · simp [togglePlay, freshSession, hp]
  · simp [startWithPreset, freshSession]

theorem truthy_empty : truthy "" = false := by decide

theorem tick_unlimited (a : App) (e : Nat) (htl : a.state.timeLimit = "")
    (hr : a.state.timeLimitReached = false) (hc : a.state.sessionComplete = false)
    (hp : a.state.isPlaying = true) :
    (tick a e).1.state.timeLimitReached = false ∧
    (tick a e).1.state.sessionComplete = false ∧
    (tick a e).1.state.isPlaying = true := by
  rcases tick_cases a e with h | ⟨st, _, _, h⟩
  · rw [h]; exact ⟨hr, hc, hp⟩
  · rw [h]
    simp [completesAt, htl, hr, hc, hp, truthy_empty]

theorem ticks_unlimited (es : List Nat) (a : App) (htl : a.state.timeLimit = "")
    (hr : a.state.timeLimitReached = false) (hc : a.state.sessionComplete = false)
    (hp : a.state.isPlaying = true) :
    (ticks a es).state.timeLimitReached = false ∧
    (ticks a es).state.sessionComplete = false ∧
    (ticks a es).state.isPlaying = true := by
  induction es generalizing a with
  | nil => exact ⟨hr, hc, hp⟩
  | cons e es ih =>
    obtain ⟨h1, h2, h3⟩ := tick_unlimited a e htl hr hc hp
    exact ih _ ((tick_config a e).2.2.trans htl) h1 h2 h3

/-- C4, as stated, fails for the limit "0": the sanitized input "0" is a
non-empty string, so the limit check runs, `0 * 60` seconds are reached at the
first new second, and the session completes at the first wrap. -/
theorem zero_limit_is_reached_and_completes :
    (run initialApp [Action.handleTimeLimitChange "0", Action.togglePlay]).state.timeLimit = "0" ∧
    (run initialApp [Action.handleTimeLimitChange "0", Action.togglePlay,
      Action.tick 1]).state.timeLimitReached = true ∧
    (run initialApp [Action.handleTimeLimitChange "0", Action.togglePlay,
      Action.tick 1, Action.tick 2, Action.tick 3, Action.tick 4, Action.tick 5,
      Action.tick 6, Action.tick 7, Action.tick 8, Action.tick 9,
      Action.tick 10]).state.sessionComplete = true := by
  decide

/-- C4, amended: an empty time limit means unlimited.  For every session
started with the stored time limit empty and every sequence of timer callbacks
at any samples, the limit flag stays false, the session does not complete and
stays running. -/
theorem empty_limit_is_unlimited (a : App) (es : List Nat)
    (hp : a.state.isPlaying = false) (htl : a.state.timeLimit = "") :
    (ticks (togglePlay a).1 es).state.timeLimitReached = false ∧
    (ticks (togglePlay a).1 es).state.sessionComplete = false ∧
    (ticks (togglePlay a).1 es).state.isPlaying = true := by
  obtain ⟨_, _, _, _, h5, h6, h7⟩ := started_fields a (togglePlay a).1 0 (Or.inl ⟨hp, rfl⟩)
  refine ticks_unlimited es _ ?_ h7 h6 h5
  simp [togglePlay, freshSession, hp, htl]

/-- C4, amended, on the initial program sampled at 60, 120 and 600 seconds. -/
theorem empty_limit_is_unlimited_witness :
    (ticks (togglePlay initialApp).1 [60, 120, 600]).state.totalTime = 600 ∧
    (ticks (togglePlay initialApp).1 [60, 120, 600]).state.timeLimitReached = false ∧
    (ticks (togglePlay initialApp).1 [60, 120, 600]).state.sessionComplete = false :=
  ⟨by decide,
   (empty_limit_is_unlimited initialApp [60, 120, 600] (by decide) (by decide)).1,
   (empty_limit_is_unlimited initialApp [60, 120, 600] (by decide) (by decide)).2.1⟩

/-! ## Drift-freedom -/

theorem tick_tracksTime (b : App) (e E : Nat) (h : tracksTime b E) (he : e ≤ E) :
    tracksTime (tick b e).1 E := by
  obtain ⟨h1, h2, h3⟩ := h
  rcases tick_cases b e with h4 | ⟨st, hst, _, h4⟩
  · rw [h4]; exact ⟨h1, h2, h3⟩
  · have h0 : st = 0 := by
      rcases h2 with h2 | ⟨h2, _⟩
      · rw [hst] at h2; exact Option.some.inj h2
      · rw [hst] at h2; exact absurd h2 (by simp)
    subst h0
    rw [h4]
    refine ⟨rfl, ?_, ?_⟩
    · cases hc : completesAt b.state (0 + e) <;> simp
    · show 0 + e ≤ E
      omega

theorem ticks_tracksTime (es : List Nat) (b : App) (E : Nat) (h : tracksTime b E)
    (hes : ∀ x ∈ es, x ≤ E) : tracksTime (ticks b es) E := by
  induction es generalizing b with
  | nil => exact h
  | cons e es ih =>
    exact ih _ (tick_tracksTime b e E h (hes e (List.mem_cons_self _ _)))
      (fun x hx => hes x (List.mem_cons_of_mem _ hx))

theorem started_tracksTime (a a0 : App) (minutes E : Nat)
    (hstart : (a.state.isPlaying = false ∧ a0 = (togglePlay a).1) ∨
              a0 = (startWithPreset a minutes).1)
    (hi : 0 < a0.state.inhaleTime) : tracksTime a0 E := by
  obtain ⟨h1, h2, h3, h4, _, _, _⟩ := started_fields a a0 minutes hstart
  refine ⟨?_, Or.inl h1, by omega⟩
  rw [h2, h3, h4]
  simp [compute, hi]

/-- The state after a last callback sampled at `E`, when every earlier sample
was at most `E` and the session had not completed before it. -/
theorem ticks_last_sample (b : App) (init : List Nat) (E : Nat) (h : tracksTime b E)
    (hes : ∀ x ∈ init, x ≤ E) (hlive : (ticks b init).state.sessionComplete = false) :
    ((ticks b (init ++ [E])).state.count, (ticks b (init ++ [E])).state.countdown) =
      compute E b.state.inhaleTime b.state.exhaleTime ∧
    (ticks b (init ++ [E])).state.totalTime = E := by
  obtain ⟨h1, h2, h3⟩ := ticks_tracksTime init b E h hes
  obtain ⟨g1, g2, _⟩ := ticks_config init b
  have hiv : (ticks b init).interval = some 0 := by
    rcases h2 with h2 | ⟨_, h2⟩
    · exact h2
    · rw [hlive] at h2; exact absurd h2 (by decide)
  rw [ticks_concat]
  by_cases hlt : (ticks b init).state.totalTime < 0 + E
  · rw [tick_advance _ 0 E hiv hlt]
    simp [g1, g2]
  · have hE : (ticks b init).state.totalTime = E := by omega
    rw [tick_stale _ 0 E hiv (by omega), h1, hE, g1, g2]
    exact ⟨rfl, rfl⟩

set_option maxRecDepth 100000 in
/-- C2, as stated, fails for a session with a time limit: with the limit "1"
typed and the session started (inhale 4, exhale 6), the samples 59, 61 are
non-decreasing and end at 61, and the stored phase and countdown after them are
those of `compute 61`, Inhale 3; but the replay of one callback per second from
0 to 61 completes at second 60, where the timer is cancelled, and is left with
Inhale 4.  So the stored values depend on whether second 60 was sampled. -/
theorem irregular_samples_differ_from_replay :
    (handleTimeLimitChange initialApp "1").1.state.isPlaying = false ∧
    ([59] ++ [61]).Pairwise (fun x y => x ≤ y) ∧
    ((ticks (togglePlay (handleTimeLimitChange initialApp "1").1).1 ([59] ++ [61])).state.count,
      (ticks (togglePlay (handleTimeLimitChange initialApp "1").1).1
        ([59] ++ [61])).state.countdown) = compute 61 4 6 ∧
    compute 61 4 6 = (0, 3) ∧
    (ticks (togglePlay (handleTimeLimitChange initialApp "1").1).1
      (List.range 61)).state.sessionComplete = true ∧
    ((ticks (togglePlay (handleTimeLimitChange initialApp "1").1).1
        (List.range (61 + 1))).state.count,
      (ticks (togglePlay (handleTimeLimitChange initialApp "1").1).1
        (List.range (61 + 1))).state.countdown) = (0, 4) ∧
    ((ticks (togglePlay (handleTimeLimitChange initialApp "1").1).1
        (List.range (61 + 1))).state.count,
      (ticks (togglePlay (handleTimeLimitChange initialApp "1").1).1
        (List.range (61 + 1))).state.countdown) ≠
    ((ticks (togglePlay (handleTimeLimitChange initialApp "1").1).1 ([59] ++ [61])).state.count,
      (ticks (togglePlay (handleTimeLimitChange initialApp "1").1).1
        ([59] ++ [61])).state.countdown) := by
  decide

/-- C2, amended: for a session just started (by `togglePlay` from a non-running
state or by `startWithPreset`) with a positive inhale duration, and every
sequence of timer callbacks whose samples are non-decreasing and end at `E`,
the session not having completed before the last one (so that callback runs):
the stored phase and countdown after the last callback are `compute E` and the
stored total time is `E`.  Hence every other such sequence ending at `E` stores
the same phase and countdown, and so does the replay of one callback per second
from 0 to `E` whenever the replay has not completed before second `E`, which is
always so when the stored time limit is empty. -/
theorem ticks_phase_is_compute (a a0 : App) (minutes : Nat) (init : List Nat) (E : Nat)
    (hstart : (a.state.isPlaying = false ∧ a0 = (togglePlay a).1) ∨
              a0 = (startWithPreset a minutes).1)
    (hi : 0 < a0.state.inhaleTime)
    (hsorted : (init ++ [E]).Pairwise (fun x y => x ≤ y))
    (hlive : (ticks a0 init).state.sessionComplete = false) :
    ((ticks a0 (init ++ [E])).state.count, (ticks a0 (init ++ [E])).state.countdown) =
      compute E a0.state.inhaleTime a0.state.exhaleTime ∧
    (ticks a0 (init ++ [E])).state.totalTime = E ∧
    (∀ other : List Nat, (other ++ [E]).Pairwise (fun x y => x ≤ y) →
      (ticks a0 other).state.sessionComplete = false →
      ((ticks a0 (other ++ [E])).state.count, (ticks a0 (other ++ [E])).state.countdown) =
      ((ticks a0 (init ++ [E])).state.count, (ticks a0 (init ++ [E])).state.countdown)) ∧
    ((ticks a0 (List.range E)).state.sessionComplete = false →
      ((ticks a0 (List.range (E + 1))).state.count,
        (ticks a0 (List.range (E + 1))).state.countdown) =
      ((ticks a0 (init ++ [E])).state.count, (ticks a0 (init ++ [E])).state.countdown)) ∧
    (a0.state.timeLimit = "" →
      ((ticks a0 (List.range (E + 1))).state.count,
        (ticks a0 (List.range (E + 1))).state.countdown) =
      ((ticks a0 (init ++ [E])).state.count, (ticks a0 (init ++ [E])).state.countdown)) := by
  have ht := started_tracksTime a a0 minutes E hstart hi
  have hes : ∀ x ∈ init, x ≤ E := by
    intro x hx
    exact (List.pairwise_append.mp hsorted).2.2 x hx E (List.mem_singleton_self E)
  obtain ⟨h1, h2⟩ := ticks_last_sample a0 init E ht hes hlive
  have hr : ∀ x ∈ List.range E, x ≤ E := fun x hx => Nat.le_of_lt (List.mem_range.mp hx)
  have hrep : (ticks a0 (List.range E)).state.sessionComplete = false →
      ((ticks a0 (List.range (E + 1))).state.count,
        (ticks a0 (List.range (E + 1))).state.countdown) =
      ((ticks a0 (init ++ [E])).state.count, (ticks a0 (init ++ [E])).state.countdown) := by
    intro hreplay
    obtain ⟨h3, _⟩ := ticks_last_sample a0 (List.range E) E ht hr hreplay
    rw [List.range_succ, h3, h1]
  refine ⟨h1, h2, fun other hso hlo => ?_, hrep, fun htl => hrep ?_⟩
  · have hos : ∀ x ∈ other, x ≤ E := by
      intro x hx
      exact (List.pairwise_append.mp hso).2.2 x hx E (List.mem_singleton_self E)
    obtain ⟨h4, _⟩ := ticks_last_sample a0 other E ht hos hlo
    rw [h4, h1]
  · obtain ⟨_, _, _, _, f5, f6, f7⟩ := started_fields a a0 minutes hstart
    exact (ticks_unlimited (List.range E) a0 htl f7 f6 f5).2.1

/-- C2, amended, on the initial program started and sampled irregularly at 0, 0,
3, 3, 8, 17: the result is Exhale with countdown 3, as for the samples 5, 17 and
for the replay 0, 1, ..., 17. -/
theorem ticks_phase_is_compute_witness :
    ((ticks (togglePlay initialApp).1 ([0, 0, 3, 3, 8] ++ [17])).state.count,
      (ticks (togglePlay initialApp).1 ([0, 0, 3, 3, 8] ++ [17])).state.countdown) = (1, 3) ∧
    ((ticks (togglePlay initialApp).1 ([5] ++ [17])).state.count,
      (ticks (togglePlay initialApp).1 ([5] ++ [17])).state.countdown) =
    ((ticks (togglePlay initialApp).1 ([0, 0, 3, 3, 8] ++ [17])).state.count,
      (ticks (togglePlay initialApp).1 ([0, 0, 3, 3, 8] ++ [17])).state.countdown) ∧
    ((ticks (togglePlay initialApp).1 (List.range (17 + 1))).state.count,
      (ticks (togglePlay initialApp).1 (List.range (17 + 1))).state.countdown) =
    ((ticks (togglePlay initialApp).1 ([0, 0, 3, 3, 8] ++ [17])).state.count,
      (ticks (togglePlay initialApp).1 ([0, 0, 3, 3, 8] ++ [17])).state.countdown) :=
  have h := ticks_phase_is_compute initialApp (togglePlay initialApp).1 0 [0, 0, 3, 3, 8] 17
    (Or.inl ⟨by decide, rfl⟩) (by decide) (by decide) (by decide)
  ⟨h.1, h.2.2.1 [5] (by decide) (by decide), h.2.2.2.1 (by decide)⟩

/-! ## The time limit under one callback per second -/

theorem truthy_of_parseInt (s : String) (L : Nat) (h : parseInt s = some L) :
    truthy s = true := by
  cases hd : s.data with
  | nil => simp [parseInt, hd] at h
  | cons c cs => simp [truthy, hd]

theorem geLimitSeconds_of_parseInt (s : String) (L x : Nat) (h : parseInt s = some L) :
    geLimitSeconds x s = decide (L * 60 ≤ x) := by
  simp [geLimitSeconds, h]

theorem tick_secondOfSession (b : App) (L W t : Nat) (h : secondOfSession b L t)
    (hparse : parseInt b.state.timeLimit = some L)
    (hmin : ∀ k, (b.state.inhaleTime + b.state.exhaleTime) ∣ k → L * 60 ≤ k → W ≤ k)
    (ht : t + 1 < W) : secondOfSession (tick b (t + 1)).1 L (t + 1) := by
  obtain ⟨h1, h2, h3, h4, h5⟩ := h
  have hnot : completesAt b.state (0 + (t + 1)) = false := by
    rw [Bool.eq_false_iff]
    intro hc
    simp only [completesAt, Bool.and_eq_true, Bool.or_eq_true, decide_eq_true_eq,
      geLimitSeconds_of_parseInt _ _ _ hparse, h3] at hc
    have hge : L * 60 ≤ 0 + (t + 1) := by
      rcases hc.1.1 with h | h
      · omega
      · exact h.2
    have := hmin (0 + (t + 1)) (Nat.dvd_of_mod_eq_zero hc.1.2) hge
    omega
  rw [tick_advance b 0 (t + 1) h1 (by omega), hnot]
  refine ⟨rfl, by simp, ?_, by simpa using h4, by simpa using h5⟩
  simp only [h3, truthy_of_parseInt _ _ hparse, geLimitSeconds_of_parseInt _ _ _ hparse,
    Bool.true_and]
  by_cases hA : L * 60 ≤ t <;> by_cases hB : L * 60 ≤ 0 + (t + 1) <;> simp [hA, hB] <;> omega

theorem ticks_secondOfSession (a0 : App) (L W : Nat) (h : secondOfSession a0 L 0)
    (hparse : parseInt a0.state.timeLimit = some L)
    (hmin : ∀ k, (a0.state.inhaleTime + a0.state.exhaleTime) ∣ k → L * 60 ≤ k → W ≤ k)
    (t : Nat) (ht : t < W) : secondOfSession (ticks a0 (List.range' 1 t)) L t := by
  induction t with
  | zero => exact h
  | succ t ih =>
    obtain ⟨g1, g2, g3⟩ := ticks_config (List.range' 1 t) a0
    rw [List.range'_1_concat, ticks_concat, Nat.add_comm 1 t]
    exact tick_secondOfSession _ L W t (ih (by omega)) (by rw [g3]; exact hparse)
      (by rw [g1, g2]; exact hmin) ht

theorem ticks_at_wrap (a0 : App) (L W : Nat) (h : secondOfSession a0 L 0)
    (hparse : parseInt a0.state.timeLimit = some L) (hL : 0 < L)
    (hi : 0 < a0.state.inhaleTime)
    (hdvd : (a0.state.inhaleTime + a0.state.exhaleTime) ∣ W) (hge : L * 60 ≤ W)
    (hmin : ∀ k, (a0.state.inhaleTime + a0.state.exhaleTime) ∣ k → L * 60 ≤ k → W ≤ k) :
    (ticks a0 (List.range' 1 W)).state.timeLimitReached = true ∧
    (ticks a0 (List.range' 1 W)).state.sessionComplete = true ∧
    (ticks a0 (List.range' 1 W)).state.isPlaying = false := by
  obtain ⟨w, rfl⟩ : ∃ w, W = w + 1 := ⟨W - 1, by omega⟩
  obtain ⟨h1, h2, h3, h4, h5⟩ := ticks_secondOfSession a0 L (w + 1) h hparse hmin w (by omega)
  obtain ⟨g1, g2, g3⟩ := ticks_config (List.range' 1 w) a0
  have hmod : (0 + (w + 1)) % (a0.state.inhaleTime + a0.state.exhaleTime) = 0 := by
    rw [Nat.zero_add]; exact Nat.mod_eq_zero_of_dvd hdvd
  have hge2 : L * 60 ≤ 0 + (w + 1) := by omega
  have hreach : ((ticks a0 (List.range' 1 w)).state.timeLimitReached ||
      (truthy (ticks a0 (List.range' 1 w)).state.timeLimit &&
        geLimitSeconds (0 + (w + 1)) (ticks a0 (List.range' 1 w)).state.timeLimit)) = true := by
    rw [g3, truthy_of_parseInt _ _ hparse, geLimitSeconds_of_parseInt _ _ _ hparse]
    simp only [Bool.true_and, Bool.or_eq_true, decide_eq_true_eq]
    exact Or.inr hge2
  have hdone : completesAt (ticks a0 (List.range' 1 w)).state (0 + (w + 1)) = true := by
    simp only [completesAt, hreach, g1, g2, hmod, compute, hi, if_true, decide_True,
      Bool.and_self]
  rw [List.range'_1_concat, ticks_concat, Nat.add_comm 1 w,
    tick_advance _ 0 (w + 1) h1 (by omega), hdone]
  exact ⟨hreach, by simp, by simp⟩

/-- C3: a session started with a stored limit that parses to `L > 0` minutes and
a positive inhale duration, sampled once per second (elapsed 1, 2, 3, ...): the
limit flag is false after every callback before second `60 L` and true after the
one at `60 L`; the session is not complete and still playing after every
callback before `W`, the least multiple of the cycle length that is at least
`60 L`; after the callback at `W` it is complete and not playing. -/
theorem limit_reached_then_complete_at_wrap (a a0 : App) (minutes L W : Nat)
    (hstart : (a.state.isPlaying = false ∧ a0 = (togglePlay a).1) ∨
              a0 = (startWithPreset a minutes).1)
    (hparse : parseInt a0.state.timeLimit = some L) (hL : 0 < L)
    (hi : 0 < a0.state.inhaleTime)
    (hdvd : (a0.state.inhaleTime + a0.state.exhaleTime) ∣ W) (hge : L * 60 ≤ W)
    (hmin : ∀ k, (a0.state.inhaleTime + a0.state.exhaleTime) ∣ k → L * 60 ≤ k → W ≤ k) :
    (∀ t, t < L * 60 → (ticks a0 (List.range' 1 t)).state.timeLimitReached = false) ∧
    (ticks a0 (List.range' 1 (L * 60))).state.timeLimitReached = true ∧
    (∀ t, t < W → (ticks a0 (List.range' 1 t)).state.sessionComplete = false ∧
                  (ticks a0 (List.range' 1 t)).state.isPlaying = true) ∧
    (ticks a0 (List.range' 1 W)).state.sessionComplete = true ∧
    (ticks a0 (List.range' 1 W)).state.isPlaying = false := by
  obtain ⟨f1, f2, _, _, f5, f6, f7⟩ := started_fields a a0 minutes hstart
  have h0 : secondOfSession a0 L 0 := ⟨f1, f2, by rw [f7]; simp; omega, f6, f5⟩
  have hsec := ticks_secondOfSession a0 L W h0 hparse hmin
  obtain ⟨w1, w2, w3⟩ := ticks_at_wrap a0 L W h0 hparse hL hi hdvd hge hmin
  refine ⟨fun t ht => ?_, ?_, fun t ht => ?_, w2, w3⟩
  · obtain ⟨_, _, h3, _, _⟩ := hsec t (by omega)
    rw [h3]; simp; omega
  · rcases Nat.lt_or_ge (L * 60) W with hlt | hge2
    · obtain ⟨_, _, h3, _, _⟩ := hsec (L * 60) hlt
      rw [h3]; simp
    · have hEq : L * 60 = W := by omega
      rw [hEq]; exact w1
  · obtain ⟨_, _, _, h4, h5⟩ := hsec t ht
    exact ⟨h4, h5⟩

/-- C3 with a 1 minute limit, inhale 4 and exhale 6: `W` is 60; the limit flag is
false at second 59 and true at 60, the session is still playing at 59 and
complete at 60. -/
theorem limit_reached_then_complete_at_wrap_witness :
    (ticks (startWithPreset initialApp 1).1 (List.range' 1 59)).state.timeLimitReached = false ∧
    (ticks (startWithPreset initialApp 1).1 (List.range' 1 59)).state.isPlaying = true ∧
    (ticks (startWithPreset initialApp 1).1
      (List.range' 1 (1 * 60))).state.timeLimitReached = true ∧
    (ticks (startWithPreset initialApp 1).1 (List.range' 1 60)).state.sessionComplete = true ∧
    (ticks (startWithPreset initialApp 1).1 (List.range' 1 60)).state.isPlaying = false :=
  have h := limit_reached_then_complete_at_wrap initialApp (startWithPreset initialApp 1).1
    1 1 60 (Or.inr rfl) (by decide) (by decide) (by decide) (Dvd.intro 6 rfl) (by decide)
    (fun _ _ hk => hk)
  ⟨h.1 59 (by decide), (h.2.2.1 59 (by decide)).2, h.2.1, h.2.2.2.1, h.2.2.2.2⟩

/-- C7 fails at a skipped wrap second: with a 1 minute limit, inhale 4 and
exhale 6 (so `W = 60`), the samples 59, 61 are strictly increasing and the
second one is past `W`, yet after it the limit flag is set while the session is
neither complete nor stopped; it completes only when a later callback samples a
multiple of the cycle length exactly (here 70), and samples that miss every such
second never complete it. -/
theorem skipped_wrap_second_does_not_complete :
    (ticks (startWithPreset initialApp 1).1 [59, 61]).state.timeLimitReached = true ∧
    (ticks (startWithPreset initialApp 1).1 [59, 61]).state.sessionComplete = false ∧
    (ticks (startWithPreset initialApp 1).1 [59, 61]).state.isPlaying = true ∧
    (ticks (startWithPreset initialApp 1).1 [59, 61, 69, 71, 79, 81]).state.sessionComplete
      = false ∧
    (ticks (startWithPreset initialApp 1).1 [59, 61, 70]).state.sessionComplete = true := by
  decide

/-! ## Presets and pause -/

/-- C11: on every non-running state and for every number of minutes,
`startWithPreset(minutes)` gives the same program state, the same scheduled
timer and the same effects as storing `minutes` as the time limit and then
calling `togglePlay`; the effects are one cue, the timer restart, the wake-lock
request and a render. -/
theorem startWithPreset_eq_setLimitThenStart (a : App) (minutes : Nat)
    (hp : a.state.isPlaying = false) :
    startWithPreset a minutes = setLimitThenStart a minutes ∧
    (startWithPreset a minutes).2 =
      [Signal.tone, Signal.clearInterval, Signal.setInterval,
       Signal.requestWakeLock, Signal.render] ∧
    (startWithPreset a minutes).1.state.timeLimit = toString minutes := by
  simp [startWithPreset, setLimitThenStart, togglePlay, freshSession, hp]

/-- C11 on the initial program and the 5 minute preset. -/
theorem startWithPreset_eq_setLimitThenStart_witness :
    startWithPreset initialApp 5 = setLimitThenStart initialApp 5 ∧
    (startWithPreset initialApp 5).1.state.timeLimit = "5" :=
  ⟨(startWithPreset_eq_setLimitThenStart initialApp 5 (by decide)).1,
   (startWithPreset_eq_setLimitThenStart initialApp 5 (by decide)).2.2⟩

/-- C12: on every running state `togglePlay` is pause: it clears `isPlaying`,
cancels the timer, asks for the wake-lock release and a render, and leaves the
total time, phase, countdown, limit flag, completion flag, time limit and both
durations unchanged. -/
theorem pause_preserves_state (a : App) (hp : a.state.isPlaying = true) :
    (togglePlay a).1.state.isPlaying = false ∧
    (togglePlay a).1.state.totalTime = a.state.totalTime ∧
    (togglePlay a).1.state.count = a.state.count ∧
    (togglePlay a).1.state.countdown = a.state.countdown ∧
    (togglePlay a).1.state.timeLimitReached = a.state.timeLimitReached ∧
    (togglePlay a).1.state.sessionComplete = a.state.sessionComplete ∧
    (togglePlay a).1.state.timeLimit = a.state.timeLimit ∧
    (togglePlay a).1.state.inhaleTime = a.state.inhaleTime ∧
    (togglePlay a).1.state.exhaleTime = a.state.exhaleTime ∧
    (togglePlay a).1.state = { a.state with isPlaying := false } ∧
    (togglePlay a).1.interval = none ∧
    (togglePlay a).2 = [Signal.clearInterval, Signal.releaseWakeLock, Signal.render] := by
  simp [togglePlay, hp]

/-- C12 on the running session `runningApp`: 15 seconds in, in Exhale
with a 2 minute limit, all kept by pause. -/
theorem pause_preserves_state_witness :
    runningApp.state.isPlaying = true ∧
    (togglePlay runningApp).1.state.isPlaying = false ∧
    (togglePlay runningApp).1.state.totalTime = 15 ∧
    (togglePlay runningApp).1.state.timeLimit = "2" ∧
    (togglePlay runningApp).1.state = { runningApp.state with isPlaying := false } :=
  ⟨by decide, (pause_preserves_state runningApp (by decide)).1, by decide, by decide,
   (pause_preserves_state runningApp (by decide)).2.2.2.2.2.2.2.2.2.1⟩

/-! ## Cues -/

/-- The cues of one callback run that advances the total time to `t`: one when
the new phase differs from the stored one or `t` is a wrap, none otherwise
(lines 220-226). -/
theorem tick_advance_signals (a : App) (st e : Nat) (h : a.interval = some st)
    (hgt : a.state.totalTime < st + e) :
    (tick a e).2 =
      (if (compute (st + e) a.state.inhaleTime a.state.exhaleTime).1 ≠ a.state.count ∨
          wrapped (st + e) a.state.inhaleTime a.state.exhaleTime = true
        then [Signal.tone] else []) ++
      (if completesAt a.state (st + e) = true
        then [Signal.clearInterval, Signal.releaseWakeLock, Signal.render]
        else [Signal.render]) := by
  obtain ⟨s, iv⟩ := a
  obtain ⟨pl, cnt, cd, tt, snd, tl, sc, tr, it, et⟩ := s
  simp only at h hgt
  subst h
  have hpos : 0 < st + e := by omega
  simp only [tick, completesAt, wrapped, hgt, if_true]
  cases tr <;> by_cases htl : truthy tl = true <;>
    by_cases hge : geLimitSeconds (st + e) tl = true <;>
    by_cases h0 : (st + e) % (it + et) = 0 <;>
    by_cases hc : (compute (st + e) it et).1 = 0 <;>
    by_cases hn : (compute (st + e) it et).1 = cnt <;>
    simp [h0, hc, hn, htl, hge, hpos] <;>
    split <;> simp_all

theorem mul_cycle_pred_mod (k c : Nat) (hk : 1 ≤ k) (hc : 0 < c) :
    (k * c - 1) % c = c - 1 := by
  obtain ⟨j, rfl⟩ : ∃ j, k = j + 1 := ⟨k - 1, by omega⟩
  have h : (j + 1) * c - 1 = (c - 1) + j * c := by
    rw [Nat.succ_mul]; omega
  rw [h, Nat.add_mul_mod_self_right]
  exact Nat.mod_eq_of_lt (by omega)

theorem compute_before_wrap (k i e : Nat) (hk : 1 ≤ k) (he : 0 < e) :
    compute (k * (i + e) - 1) i e = (1, 1) := by
  have hm := mul_cycle_pred_mod k (i + e) hk (by omega)
  rw [compute_exhale _ _ _ (by rw [hm]; omega), hm]
  have : e - (i + e - 1 - i) = 1 := by omega
  rw [this]

theorem compute_at_wrap (k i e : Nat) (hi : 0 < i) :
    compute (k * (i + e)) i e = (0, i) := by
  have hm : (k * (i + e)) % (i + e) = 0 := Nat.mul_mod_left k (i + e)
  rw [compute_inhale _ _ _ (by rw [hm]; exact hi), hm]
  rfl

/-- C13: with positive durations and `k ≥ 1`, the second before the `k`-th cycle
boundary is Exhale with countdown 1, the boundary second `k * (i + e)` is Inhale
with countdown `inhaleTime` and satisfies the wrap condition, and the callback
run that advances the session to that second emits exactly one cue and stores
that phase and countdown. -/
theorem cycle_boundary (a : App) (k st elapsed : Nat)
    (hi : 0 < a.state.inhaleTime) (he : 0 < a.state.exhaleTime) (hk : 1 ≤ k)
    (hiv : a.interval = some st)
    (hreach : st + elapsed = k * (a.state.inhaleTime + a.state.exhaleTime))
    (hadv : a.state.totalTime < st + elapsed) :
    compute (k * (a.state.inhaleTime + a.state.exhaleTime) - 1)
      a.state.inhaleTime a.state.exhaleTime = (1, 1) ∧
    compute (k * (a.state.inhaleTime + a.state.exhaleTime))
      a.state.inhaleTime a.state.exhaleTime = (0, a.state.inhaleTime) ∧
    wrapped (k * (a.state.inhaleTime + a.state.exhaleTime))
      a.state.inhaleTime a.state.exhaleTime = true ∧
    (tick a elapsed).2.count Signal.tone = 1 ∧
    (tick a elapsed).1.state.totalTime = k * (a.state.inhaleTime + a.state.exhaleTime) ∧
    (tick a elapsed).1.state.count = 0 ∧
    (tick a elapsed).1.state.countdown = a.state.inhaleTime := by
  have hw : wrapped (k * (a.state.inhaleTime + a.state.exhaleTime))
      a.state.inhaleTime a.state.exhaleTime = true := by
    have hpos : 0 < k * (a.state.inhaleTime + a.state.exhaleTime) := by
      rw [← hreach]; omega
    simp [wrapped, hpos]
  have hc := compute_at_wrap k a.state.inhaleTime a.state.exhaleTime hi
  refine ⟨compute_before_wrap k _ _ hk he, hc, hw, ?_, ?_, ?_, ?_⟩
  · rw [tick_advance_signals a st elapsed hiv hadv, hreach, hw]
    cases completesAt a.state (k * (a.state.inhaleTime + a.state.exhaleTime)) <;> simp
  · rw [tick_advance a st elapsed hiv hadv, hreach]
  · rw [tick_advance a st elapsed hiv hadv, hreach]
    simp [hc]
  · rw [tick_advance a st elapsed hiv hadv, hreach]
    simp [hc]

/-- C13 with inhale 4 and exhale 6: after second 9 the session is in Exhale with
countdown 1; the callback at second 10 emits one cue and stores Inhale with
countdown 4. -/
theorem cycle_boundary_witness :
    (ticks (togglePlay initialApp).1 [9]).state.count = 1 ∧
    (ticks (togglePlay initialApp).1 [9]).state.countdown = 1 ∧
    compute (1 * (4 + 6) - 1) 4 6 = (1, 1) ∧
    (tick (ticks (togglePlay initialApp).1 [9]) 10).2.count Signal.tone = 1 ∧
    (tick (ticks (togglePlay initialApp).1 [9]) 10).1.state.count = 0 ∧
    (tick (ticks (togglePlay initialApp).1 [9]) 10).1.state.countdown = 4 :=
  have h := cycle_boundary (ticks (togglePlay initialApp).1 [9]) 1 0 10
    (by decide) (by decide) (by decide) (by decide) (by decide) (by decide)
  ⟨by decide, by decide, h.1, h.2.2.2.1, h.2.2.2.2.2.1, h.2.2.2.2.2.2⟩

/-! ## Time-limit input -/

theorem isDigit_toNat (c : Char) (h : c.isDigit = true) : 48 ≤ c.toNat ∧ c.toNat ≤ 57 := by
  simp only [Char.isDigit, Bool.and_eq_true, decide_eq_true_eq] at h
  exact ⟨h.1, h.2⟩

theorem sanitize_data (s : String) : (sanitize s).data = s.data.filter Char.isDigit := rfl

theorem parseInt_sanitize (s : String) :
    sanitize s = "" ∨ parseInt (sanitize s) = some (digitsValue (sanitize s).data) := by
  have htw : (sanitize s).data.takeWhile Char.isDigit = (sanitize s).data := by
    rw [List.takeWhile_eq_self_iff]
    intro c hc
    rw [sanitize_data] at hc
    exact (List.mem_filter.mp hc).2
  cases hd : (sanitize s).data with
  | nil =>
    left
    show sanitize s = String.mk []
    rw [← hd]
  | cons d ds =>
    right
    rw [hd] at htw
    simp only [parseInt, hd, htw]

/-- C14: for every input string, `handleTimeLimitChange` stores the sanitized
string; it consists of the characters 0-9 only, is a subsequence of the input
that keeps every digit occurrence (so it is the input with the non-digits
removed, order kept), sanitizing it again changes nothing, and it is either
empty or read by `parseInt` as the natural number its digits denote. -/
theorem time_limit_sanitized (a : App) (s : String) :
    (handleTimeLimitChange a s).1.state.timeLimit = sanitize s ∧
    (∀ c ∈ (sanitize s).data, c.isDigit = true ∧ 48 ≤ c.toNat ∧ c.toNat ≤ 57) ∧
    List.Sublist (sanitize s).data s.data ∧
    (∀ c, c.isDigit = true → (sanitize s).data.count c = s.data.count c) ∧
    sanitize (sanitize s) = sanitize s ∧
    (sanitize s = "" ∨ parseInt (sanitize s) = some (digitsValue (sanitize s).data)) := by
  refine ⟨rfl, ?_, ?_, ?_, ?_, parseInt_sanitize s⟩
  · intro c hc
    rw [sanitize_data] at hc
    have hd := (List.mem_filter.mp hc).2
    exact ⟨hd, isDigit_toNat c hd⟩
  · rw [sanitize_data]
    exact List.filter_sublist _
  · intro c hc
    rw [sanitize_data]
    exact List.count_filter hc
  · show String.mk ((sanitize s).data.filter Char.isDigit) = sanitize s
    rw [sanitize_data, List.filter_filter]
    simp [sanitize]

/-- C14 on the input "1a2.5": the stored limit is "125", read as 125. -/
theorem time_limit_sanitized_witness :
    (handleTimeLimitChange initialApp "1a2.5").1.state.timeLimit = "125" ∧
    sanitize (sanitize "1a2.5") = sanitize "1a2.5" ∧
    parseInt (sanitize "1a2.5") = some 125 :=
  ⟨(time_limit_sanitized initialApp "1a2.5").1,
   (time_limit_sanitized initialApp "1a2.5").2.2.2.2.1, by decide⟩

/-! ## The stateless computation and the decrement stepper -/

theorem succ_mod_cycle (t c : Nat) (hc : 0 < c) :
    (t + 1) % c = if t % c + 1 = c then 0 else t % c + 1 := by
  have hlt : t % c < c := Nat.mod_lt _ hc
  rw [← Nat.mod_add_mod t c 1]
  split
  · next h => rw [h, Nat.mod_self]
  · next h => exact Nat.mod_eq_of_lt (by omega)

theorem decrementStep_cyclePos (p i e : Nat) (hi : 0 < i) (he : 0 < e) (hlt : p < i + e) :
    (if (if p + 1 = i + e then 0 else p + 1) < i
      then (0, i - (if p + 1 = i + e then 0 else p + 1))
      else (1, e - ((if p + 1 = i + e then 0 else p + 1) - i))) =
    decrementStep i e (if p < i then (0, i - p) else (1, e - (p - i))) := by
  by_cases h1 : p < i <;> by_cases h2 : p + 1 = i + e <;> by_cases h3 : p + 1 < i <;>
    by_cases h4 : i - p = 1 <;> by_cases h5 : e - (p - i) = 1 <;>
    simp [decrementStep, h1, h2, h3, h4, h5, hi] <;> omega

theorem compute_succ (t i e : Nat) (hi : 0 < i) (he : 0 < e) :
    compute (t + 1) i e = decrementStep i e (compute t i e) := by
  have hlt : t % (i + e) < i + e := Nat.mod_lt _ (by omega)
  have hs := succ_mod_cycle t (i + e) (by omega)
  simp only [compute]
  rw [hs]
  exact decrementStep_cyclePos (t % (i + e)) i e hi he hlt

theorem compute_phase (t i e : Nat) : (compute t i e).1 = 0 ∨ (compute t i e).1 = 1 := by
  by_cases h : t % (i + e) < i
  · rw [compute_inhale _ _ _ h]; exact Or.inl rfl
  · rw [compute_exhale _ _ _ h]; exact Or.inr rfl

theorem compute_zero (i e : Nat) (hi : 0 < i) : compute 0 i e = (0, i) := by
  simp [compute, hi]

theorem compute_eq_iterate (t i e : Nat) (hi : 0 < i) (he : 0 < e) :
    compute t i e = Nat.iterate (decrementStep i e) t (0, i) := by
  induction t with
  | zero => exact compute_zero i e hi
  | succ t ih => rw [Function.iterate_succ_apply', ← ih, compute_succ t i e hi he]

/-- C16: for positive durations the stateless computation steps like the
decrement-per-tick stepper of the comments.  It starts at (Inhale, `i`); while
the countdown is above 1 the next second has the same phase and the countdown
one less; at countdown 1 the next second has the other phase with its full
duration; so `compute (t + 1)` is one stepper step from `compute t`, and
`compute t` is `t` stepper steps from (Inhale, `i`). -/
theorem compute_agrees_with_decrement_stepper (t i e : Nat) (hi : 0 < i) (he : 0 < e) :
    compute 0 i e = (0, i) ∧
    (1 < (compute t i e).2 →
      compute (t + 1) i e = ((compute t i e).1, (compute t i e).2 - 1)) ∧
    ((compute t i e).2 = 1 →
      (compute (t + 1) i e).1 ≠ (compute t i e).1 ∧
      (compute (t + 1) i e).1 = 1 - (compute t i e).1 ∧
      (compute (t + 1) i e).2 = (if (compute (t + 1) i e).1 = 0 then i else e)) ∧
    compute (t + 1) i e = decrementStep i e (compute t i e) ∧
    compute t i e = Nat.iterate (decrementStep i e) t (0, i) := by
  have hs := compute_succ t i e hi he
  refine ⟨compute_zero i e hi, fun h => ?_, fun h => ?_, hs, compute_eq_iterate t i e hi he⟩
  · rw [hs, decrementStep, if_neg (by omega)]
  · rw [hs, decrementStep, if_pos h]
    rcases compute_phase t i e with h0 | h0 <;> rw [h0] <;> simp

/-- C16 with inhale 4 and exhale 6: seconds 0-3 are Inhale 4, 3, 2, 1 and seconds
4-9 are Exhale 6, 5, 4, 3, 2, 1; second 10 is Inhale 4 again. -/
theorem compute_agrees_with_decrement_stepper_witness :
    (List.range 11).map (fun t => compute t 4 6) =
      [(0, 4), (0, 3), (0, 2), (0, 1), (1, 6), (1, 5), (1, 4), (1, 3), (1, 2), (1, 1),
       (0, 4)] ∧
    compute (3 + 1) 4 6 = decrementStep 4 6 (compute 3 4 6) ∧
    compute 9 4 6 = Nat.iterate (decrementStep 4 6) 9 (0, 4) :=
  ⟨by decide,
   (compute_agrees_with_decrement_stepper 3 4 6 (by decide) (by decide)).2.2.2.1,
   (compute_agrees_with_decrement_stepper 9 4 6 (by decide) (by decide)).2.2.2.2⟩

/-! ## When a cue is emitted -/

theorem tick_sampledEverySecond (b : App) (n : Nat) (h : sampledEverySecond b n) :
    sampledEverySecond (tick b (n + 1)).1 (n + 1) := by
  rcases h with ⟨h1, h2, _⟩ | ⟨h1, h2⟩
  · rw [tick_advance b 0 (n + 1) h1 (by omega)]
    cases hc : completesAt b.state (0 + (n + 1))
    · left
      simp
    · right
      simp
  · rw [tick_none b (n + 1) h1]
    exact Or.inr ⟨h1, h2⟩

theorem ticks_sampledEverySecond (a a0 : App) (minutes : Nat)
    (hstart : (a.state.isPlaying = false ∧ a0 = (togglePlay a).1) ∨
              a0 = (startWithPreset a minutes).1)
    (hi : 0 < a0.state.inhaleTime) (n : Nat) :
    sampledEverySecond (ticks a0 (List.range' 1 n)) n := by
  induction n with
  | zero =>
    obtain ⟨h1, h2, h3, h4, _, _, _⟩ := started_fields a a0 minutes hstart
    left
    refine ⟨h1, h2, ?_⟩
    show (a0.state.count, a0.state.countdown) =
      compute 0 a0.state.inhaleTime a0.state.exhaleTime
    rw [h3, h4, compute_zero _ _ hi]
  | succ n ih =>
    rw [List.range'_1_concat, ticks_concat, Nat.add_comm 1 n]
    exact tick_sampledEverySecond _ n ih

theorem cue_condition_cyclePos (p i e : Nat) (hi : 0 < i) :
    ((if (if p + 1 = i + e then 0 else p + 1) < i
        then (0, i - (if p + 1 = i + e then 0 else p + 1))
        else (1, e - ((if p + 1 = i + e then 0 else p + 1) - i))).1 ≠
      (if p < i then (0, i - p) else (1, e - (p - i))).1 ∨
      (if p + 1 = i + e then 0 else p + 1) = 0) ↔
    ((if p + 1 = i + e then 0 else p + 1) = 0 ∨
      (if p + 1 = i + e then 0 else p + 1) = i) := by
  by_cases h1 : p < i <;> by_cases h2 : p + 1 = i + e <;> by_cases h3 : p + 1 < i <;>
    simp [h1, h2, h3, hi] <;> omega

theorem cue_condition (n i e : Nat) (hi : 0 < i) :
    ((compute (n + 1) i e).1 ≠ (compute n i e).1 ∨ wrapped (n + 1) i e = true) ↔
    ((n + 1) % (i + e) = 0 ∨ (n + 1) % (i + e) = i) := by
  have hs := succ_mod_cycle n (i + e) (by omega)
  simp only [compute, wrapped, Bool.and_eq_true, decide_eq_true_eq]
  rw [hs]
  have hpos : n + 1 > 0 := by omega
  simp only [hpos, and_true]
  exact cue_condition_cyclePos (n % (i + e)) i e hi

/-- C15: a callback run that advances the total time emits exactly one cue when
the newly computed phase differs from the stored phase or the wrap condition
holds, and none otherwise.  Hence, for a session just started with a positive
inhale duration and sampled at seconds 1, 2, 3, ..., the callback at second
`n + 1` (run while the session has not completed) emits a cue exactly when
`(n + 1) mod (i + e)` is 0 or `i`. -/
theorem tick_cue_rule (b : App) (st elapsed : Nat) (a a0 : App) (minutes n : Nat)
    (hiv : b.interval = some st) (hadv : b.state.totalTime < st + elapsed)
    (hstart : (a.state.isPlaying = false ∧ a0 = (togglePlay a).1) ∨
              a0 = (startWithPreset a minutes).1)
    (hi : 0 < a0.state.inhaleTime)
    (hlive : (ticks a0 (List.range' 1 n)).state.sessionComplete = false) :
    (tick b elapsed).2.count Signal.tone =
      (if (compute (st + elapsed) b.state.inhaleTime b.state.exhaleTime).1 ≠ b.state.count ∨
          wrapped (st + elapsed) b.state.inhaleTime b.state.exhaleTime = true
        then 1 else 0) ∧
    (Signal.tone ∈ (tick (ticks a0 (List.range' 1 n)) (n + 1)).2 ↔
      ((n + 1) % (a0.state.inhaleTime + a0.state.exhaleTime) = 0 ∨
       (n + 1) % (a0.state.inhaleTime + a0.state.exhaleTime) = a0.state.inhaleTime)) := by
  constructor
  · rw [tick_advance_signals b st elapsed hiv hadv]
    cases completesAt b.state (st + elapsed) <;> split <;> simp
  · obtain ⟨g1, g2, _⟩ := ticks_config (List.range' 1 n) a0
    rcases ticks_sampledEverySecond a a0 minutes hstart hi n with ⟨h1, h2, h3⟩ | ⟨_, h2⟩
    · have hcnt : (ticks a0 (List.range' 1 n)).state.count =
          (compute n a0.state.inhaleTime a0.state.exhaleTime).1 := by
        rw [← g1, ← g2, ← h3]
      rw [tick_advance_signals _ 0 (n + 1) h1 (by omega), g1, g2, hcnt, Nat.zero_add,
        ← cue_condition n _ _ hi]
      cases completesAt (ticks a0 (List.range' 1 n)).state (n + 1) <;> split <;> simp_all
    · rw [hlive] at h2
      exact absurd h2 (by decide)

/-- C15 with inhale 4 and exhale 6: the callbacks at seconds 4 and 10 emit a cue,
the one at second 5 does not. -/
theorem tick_cue_rule_witness :
    (Signal.tone ∈ (tick (ticks (togglePlay initialApp).1 (List.range' 1 3)) (3 + 1)).2 ↔
      ((3 + 1) % (4 + 6) = 0 ∨ (3 + 1) % (4 + 6) = 4)) ∧
    (Signal.tone ∈ (tick (ticks (togglePlay initialApp).1 (List.range' 1 4)) (4 + 1)).2 ↔
      ((4 + 1) % (4 + 6) = 0 ∨ (4 + 1) % (4 + 6) = 4)) ∧
    (tick (ticks (togglePlay initialApp).1 (List.range' 1 9)) 10).2.count Signal.tone = 1 ∧
    (tick (ticks (togglePlay initialApp).1 (List.range' 1 4)) 5).2.count Signal.tone = 0 :=
  ⟨(tick_cue_rule (togglePlay initialApp).1 0 1 initialApp (togglePlay initialApp).1 0 3
      (by decide) (by decide) (Or.inl ⟨by decide, rfl⟩) (by decide) (by decide)).2,
   (tick_cue_rule (togglePlay initialApp).1 0 1 initialApp (togglePlay initialApp).1 0 4
      (by decide) (by decide) (Or.inl ⟨by decide, rfl⟩) (by decide) (by decide)).2,
   by decide, by decide⟩

/-! ## Completion happens only at a wrap with the limit reached -/

theorem geLimitSeconds_mono (x y : Nat) (s : String) (h : geLimitSeconds x s = true)
    (hxy : x ≤ y) : geLimitSeconds y s = true := by
  unfold geLimitSeconds at h ⊢
  cases hp : parseInt s with
  | none => rw [hp] at h; exact absurd h Bool.false_ne_true
  | some m =>
    rw [hp] at h
    simp only [ge_iff_le, decide_eq_true_eq] at h ⊢
    omega

theorem geLimitSeconds_parse (x : Nat) (s : String) (h : geLimitSeconds x s = true) :
    ∃ L, parseInt s = some L ∧ L * 60 ≤ x := by
  unfold geLimitSeconds at h
  cases hp : parseInt s with
  | none => rw [hp] at h; exact absurd h Bool.false_ne_true
  | some m =>
    rw [hp] at h
    exact ⟨m, rfl, by simpa using h⟩

theorem step_limitFlagSound (a : App) (act : Action)
    (hg : limitChangeOnlyIdle a.state act = true) (h : limitFlagSound a) :
    limitFlagSound (step a act).1 := by
  obtain ⟨h1, h2⟩ := h
  cases act with
  | togglePlay =>
    cases hp : a.state.isPlaying <;>
      simp [step, togglePlay, freshSession, limitFlagSound, hp]
  | resetToStart => simp [step, resetToStart, limitFlagSound]
  | toggleSound => exact ⟨h1, h2⟩
  | handleTimeLimitChange value =>
    have hp : a.state.isPlaying = false := by simpa [limitChangeOnlyIdle] using hg
    have hiv : a.interval = none := by
      by_contra hne
      rw [h1 hne] at hp
      exact absurd hp (by decide)
    exact ⟨fun hne => absurd hiv hne, fun hne => absurd hiv hne⟩
  | startWithPreset minutes => simp [step, startWithPreset, freshSession, limitFlagSound]
  | setExhaleTime value => exact ⟨h1, h2⟩
  | tick e =>
    rcases tick_cases a e with h3 | ⟨st, hst, hadv, h3⟩
    · simp only [step, h3]; exact ⟨h1, h2⟩
    · have hne : a.interval ≠ none := by rw [hst]; simp
      simp only [step, h3, limitFlagSound]
      cases hc : completesAt a.state (st + e)
      · refine ⟨fun _ => by simpa using h1 hne, fun _ hr => ?_⟩
        simp only [Bool.or_eq_true, Bool.and_eq_true] at hr
        rcases hr with hr | hr
        · exact geLimitSeconds_mono _ _ _ (h2 hne hr) (Nat.le_of_lt hadv)
        · exact hr.2
      · simp

theorem run_limitFlagSound (acts : List Action) (a : App)
    (hg : permitted limitChangeOnlyIdle a acts = true) (h : limitFlagSound a) :
    limitFlagSound (run a acts) := by
  induction acts generalizing a with
  | nil => exact h
  | cons act acts ih =>
    simp only [permitted, Bool.and_eq_true] at hg
    exact ih _ hg.2 (step_limitFlagSound a act hg.1 h)

/-- C17: after any sequence of events from the initial program (start, presets,
pause, reset, timer callbacks at any samples, settings, the time limit edited
only while not playing), a callback run that turns `sessionComplete` from false
to true leaves the limit flag set, a positive total time that is a multiple of
the cycle length and at least 60 times the stored limit, the phase Inhale with
countdown `inhaleTime`, and the session stopped; so no callback completes the
session at any other position of the cycle. -/
theorem completion_only_at_wrap_with_limit (acts : List Action) (e : Nat)
    (hg : permitted limitChangeOnlyIdle initialApp acts = true)
    (hbefore : (run initialApp acts).state.sessionComplete = false)
    (hafter : (tick (run initialApp acts) e).1.state.sessionComplete = true) :
    (tick (run initialApp acts) e).1.state.timeLimitReached = true ∧
    0 < (tick (run initialApp acts) e).1.state.totalTime ∧
    (tick (run initialApp acts) e).1.state.totalTime %
      ((tick (run initialApp acts) e).1.state.inhaleTime +
        (tick (run initialApp acts) e).1.state.exhaleTime) = 0 ∧
    (∃ L, parseInt (tick (run initialApp acts) e).1.state.timeLimit = some L ∧
      L * 60 ≤ (tick (run initialApp acts) e).1.state.totalTime) ∧
    (tick (run initialApp acts) e).1.state.count = 0 ∧
    (tick (run initialApp acts) e).1.state.countdown =
      (tick (run initialApp acts) e).1.state.inhaleTime ∧
    (tick (run initialApp acts) e).1.state.isPlaying = false ∧
    (tick (run initialApp acts) e).1.interval = none := by
  have hinv : limitFlagSound (run initialApp acts) :=
    run_limitFlagSound acts initialApp hg ⟨fun h => absurd rfl h, fun h => absurd rfl h⟩
  generalize run initialApp acts = b at hbefore hafter hinv ⊢
  obtain ⟨_, h2⟩ := hinv
  rcases tick_cases b e with h3 | ⟨st, hst, hadv, h3⟩
  · rw [h3, hbefore] at hafter
    exact absurd hafter (by decide)
  · have hne : b.interval ≠ none := by rw [hst]; simp
    rw [h3] at hafter ⊢
    simp only [hbefore, Bool.false_or] at hafter
    have hc := hafter
    simp only [completesAt, Bool.and_eq_true, Bool.or_eq_true, decide_eq_true_eq] at hc
    obtain ⟨⟨hr, hmod⟩, hcount⟩ := hc
    have hge : geLimitSeconds (st + e) b.state.timeLimit = true := by
      rcases hr with hr | hr
      · exact geLimitSeconds_mono _ _ _ (h2 hne hr) (Nat.le_of_lt hadv)
      · exact hr.2
    have hcd : (compute (st + e) b.state.inhaleTime b.state.exhaleTime).2 =
        b.state.inhaleTime := by
      by_cases hlt : (st + e) % (b.state.inhaleTime + b.state.exhaleTime) < b.state.inhaleTime
      · rw [compute_inhale _ _ _ hlt, hmod]; rfl
      · rw [compute_exhale _ _ _ hlt] at hcount
        exact absurd hcount Nat.one_ne_zero
    refine ⟨?_, ?_, hmod, geLimitSeconds_parse _ _ hge, hcount, hcd, ?_, ?_⟩
    · simp only [Bool.or_eq_true, Bool.and_eq_true]; exact hr
    · show 0 < st + e
      omega
    · simp [hafter]
    · simp [hafter]

/-- C17 on a session with a 1 minute limit, sampled at second 59 and then at
second 60: the callback at 60 completes it. -/
theorem completion_only_at_wrap_with_limit_witness :
    (run initialApp [Action.startWithPreset 1, Action.tick 59]).state.sessionComplete = false ∧
    (tick (run initialApp [Action.startWithPreset 1, Action.tick 59]) 60).1.state.sessionComplete
      = true ∧
    (tick (run initialApp [Action.startWithPreset 1, Action.tick 59]) 60).1.state.totalTime %
      ((tick (run initialApp [Action.startWithPreset 1, Action.tick 59]) 60).1.state.inhaleTime +
        (tick (run initialApp [Action.startWithPreset 1, Action.tick 59]) 60).1.state.exhaleTime)
      = 0 ∧
    (tick (run initialApp [Action.startWithPreset 1, Action.tick 59]) 60).1.state.count = 0 :=
  have h := completion_only_at_wrap_with_limit [Action.startWithPreset 1, Action.tick 59] 60
    (by decide) (by decide) (by decide)
  ⟨by decide, by decide, h.2.2.1, h.2.2.2.2.1⟩

end BoxV
